import Mathlib

/-!
Verification development for the oxide-client asset proxy
(src/src-tauri/src/http_proxy.rs, with src/src-tauri/src/proxy.rs as the
legacy variant of the same module).

Strings are modelled as `List Char` (valid UTF-8 text); raw byte contents
are `List Nat` (each element a byte value).  External libraries
(crc32fast, miniz_oxide's zlib deflate/inflate) are modelled as an
abstract `Lib` record, since their internals are outside this repository.
-/

namespace OxideClient

/-- A text string, modelled as its list of characters. -/
abbrev Str := List Char

/-- byte sequence -/
abbrev Bytes := List Nat

/-- External pure library functions used by the proxy:
`crc32fast::hash`, `miniz_oxide::deflate::compress_to_vec_zlib` (level, data)
and `miniz_oxide::inflate::decompress_to_vec_zlib` (`none` = DecompressError). -/
structure Lib where
  crc32 : Bytes → Nat
  deflate : Nat → Bytes → Bytes
  inflate : Bytes → Option Bytes

/-- UTF-8 byte size of one character (used to model `OsStr::len`, which
counts bytes, not characters). -/
def charUtf8Size (c : Char) : Nat :=
  if c.toNat < 0x80 then 1
  else if c.toNat < 0x800 then 2
  else if c.toNat < 0x10000 then 3
  else 4

/-- UTF-8 byte length of a string (`OsStr::len`). -/
def strUtf8Len (s : Str) : Nat :=
  (s.map charUtf8Size).sum

/-- Rust `str::rsplit_once`: split at the rightmost occurrence of `sep`,
returning (part before, part after), or `none` when `sep` does not occur. -/
def rsplitOnceChar (s : Str) (sep : Char) : Option (Str × Str) :=
  match s with
  | [] => none
  | c :: rest =>
    match rsplitOnceChar rest sep with
    | some (l, r) => some (c :: l, r)
    | none => if c = sep then some ([], rest) else none

/-- Digits-only decimal parse (`none` when empty or a non-digit occurs). -/
def parseNatDigits : Str → Option Nat
  | [] => none
  | [c] => if c.isDigit then some (c.toNat - 48) else none
  | c :: rest =>
    if c.isDigit then
      match parseNatDigits rest with
      | some v => some ((c.toNat - 48) * 10 ^ rest.length + v)
      | none => none
    else none

/-- Rust `str::parse::<uN>()` for an unsigned integer type with exclusive
upper bound `bound` (2^32 for u32, 2^16 for u16): an optional leading `+`,
then one or more ASCII digits; overflow is a parse error. -/
def rustParseUnsigned (bound : Nat) (s : Str) : Option Nat :=
  let digits := match s with
    | '+' :: rest => rest
    | _ => s
  match parseNatDigits digits with
  | some v => if v < bound then some v else none
  | none => none

/-- Rust `Path::file_stem`/`Path::extension` on a file name: the name is
split at the final `.`, provided that dot is not the leading character
(so `.gitignore` has no extension).  Returns (stem, optional extension). -/
def fileStemExt (f : Str) : Str × Option Str :=
  match f with
  | [] => ([], none)
  | c0 :: rest =>
    match rsplitOnceChar rest '.' with
    | some (l, r) => (c0 :: l, some r)
    | none => (f, none)

/-- Rust `Path::extension` of a file name. -/
def rustExtension (f : Str) : Option Str :=
  (fileStemExt f).2

/-- Rust `Path::with_extension` applied to a file name: keep the stem and
attach the new extension (empty extension means bare stem). -/
def withExtName (f : Str) (e : Str) : Str :=
  let stem := (fileStemExt f).1
  if e = [] then stem else stem ++ '.' :: e

/-! Request paths reaching `decompose_extension` consist solely of
`Component::Normal` components (the handler has already validated them),
so they are modelled as lists of component strings. -/

/-- Components of a validated (all-Normal) asset path. -/
abbrev NPath := List Str

/-- `Path::extension` of a multi-component path: extension of its file
name, i.e. of the last component. -/
def pathExtension (p : NPath) : Option Str :=
  match p.getLast? with
  | some f => rustExtension f
  | none => none

/-- `Path::with_extension` of a multi-component path: replace the
extension of the last component. -/
def pathWithExtension (p : NPath) (e : Str) : NPath :=
  match p.getLast? with
  | some f => p.dropLast ++ [withExtName f e]
  | none => p

/-- CRC-suffix stage of `decompose_extension`
(src/src-tauri/src/http_proxy.rs lines 253-271): if the extension exists
and contains `_`, split it at the rightmost `_`, replace the extension by
the left part and parse the right part as a `u32`. -/
def decomposeCrcStage (assetName : NPath) : NPath × Option Nat :=
  match pathExtension assetName with
  | some extensionStr =>
    match rsplitOnceChar extensionStr '_' with
    | some (realExtension, crcStr) =>
      (pathWithExtension assetName realExtension, rustParseUnsigned (2 ^ 32) crcStr)
    | none => (assetName, none)
  | none => (assetName, none)

/-- `decompose_extension` (src/src-tauri/src/http_proxy.rs lines 253-284):
CRC-suffix stage, then strip a final `z` extension into the
`compressed` flag. -/
def decompose_extension (assetName : NPath) : NPath × Bool × Option Nat :=
  let stage := decomposeCrcStage assetName
  let nonCrcAssetName := stage.1
  let crc := stage.2
  let compressed := pathExtension nonCrcAssetName = some ['z']
  let uncompressedAssetName :=
    if compressed then pathWithExtension nonCrcAssetName [] else nonCrcAssetName
  (uncompressedAssetName, compressed, crc)






/-! The asset data model (src/src-tauri/src/http_proxy.rs lines 53-80). -/

/-- A file-system path component as an `OsStr`: either valid UTF-8 text or
a non-Unicode byte string (identified abstractly by an id, since two
distinct non-UTF-8 names are distinct `OsStr`s). -/
inductive FsComp
  | utf8 (s : Str)
  | nonUnicode (id : Nat)
deriving DecidableEq

/-- A file-system path, as its list of components.  Paths of files inside
the client folder are kept relative to that folder (the code strips the
`client_folder` prefix before using them as keys). -/
abbrev FsPath := List FsComp

/-- `FileAssetLocator`: a slice of an on-disk file. -/
structure FileAssetLocator where
  path : FsPath
  data_offset : Nat
  size : Nat
deriving DecidableEq

/-- `AssetLocatorKind`: in-memory blob or file slice. -/
inductive AssetLocatorKind
  | memory (data : Bytes)
  | file (f : FileAssetLocator)
deriving DecidableEq

/-- `AssetLocator`. -/
structure AssetLocator where
  crc : Nat
  kind : AssetLocatorKind
deriving DecidableEq

/-- `AssetMap = HashMap<PathBuf, AssetLocator>`, modelled as an
association list where the most recent insertion comes first. -/
abbrev AssetMap := List (FsPath × AssetLocator)

/-- `HashMap::get`. -/
def mapLookup (m : AssetMap) (k : FsPath) : Option AssetLocator :=
  match m with
  | [] => none
  | (k2, v) :: rest => if k2 = k then some v else mapLookup rest k

/-- `HashMap::insert` (overwrites an existing binding). -/
def mapInsert (m : AssetMap) (k : FsPath) (v : AssetLocator) : AssetMap :=
  (k, v) :: m

/-- `HashMap::entry(k).or_insert(v)` (keeps an existing binding). -/
def mapInsertIfAbsent (m : AssetMap) (k : FsPath) (v : AssetLocator) : AssetMap :=
  if (mapLookup m k).isSome then m else mapInsert m k v

/-! The request handler (src/src-tauri/src/http_proxy.rs lines 286-421). -/

/-- Components of the `PathBuf` extracted by axum from the URL; the
request path may contain non-Normal components before validation. -/
inductive HComp
  | normal (s : Str)
  | curDir
  | parentDir
  | rootDir
  | prefixComp (id : Nat)
deriving DecidableEq

/-- Whether a component is `Component::Normal`. -/
def HComp.isNormal : HComp → Bool
  | .normal _ => true
  | _ => false

/-- Component strings of an all-Normal request path. -/
def normalParts (p : List HComp) : NPath :=
  p.filterMap fun c =>
    match c with
    | .normal s => some s
    | _ => none

/-- Observable side effects of a request handler run. -/
inductive Effect
  | diskRead (path : FsPath)
  | upstreamGet (pathAndQuery : Str)
deriving DecidableEq

/-- The upstream GET targets recorded in an effect trace. -/
def upstreamCalls (effs : List Effect) : List Str :=
  effs.filterMap fun e =>
    match e with
    | .upstreamGet t => some t
    | _ => none

/-- `COMPRESSED_MAGIC` -/
def compressedMagic : Nat := 0xa1b2c3d4

/-- `ZLIB_COMPRESSION_LEVEL` -/
def zlibCompressionLevel : Nat := 6

/-- Big-endian 4-byte encoding of a `u32` value (`write_u32`). -/
def be32 (n : Nat) : Bytes :=
  [n / 2 ^ 24 % 256, n / 2 ^ 16 % 256, n / 2 ^ 8 % 256, n % 256]

/-- Environment a request is served against: the immutable asset map, the
disk contents (`none` = the file cannot be opened), the upstream origin
(the result `request_remote_asset` would produce for a given
path-and-query: `.ok body` on HTTP 200, `.error status` otherwise), and
whether `Url::join` on the origin succeeds for a given tail. -/
structure ServeEnv where
  assetMap : AssetMap
  disk : FsPath → Option Bytes
  upstream : Str → Except Nat Bytes
  joinOk : Str → Bool

/-- `build_local_asset_response` (src/src-tauri/src/http_proxy.rs lines
286-317): materialize the body from memory or by an
open-seek-read_exact of the locator's slice, then optionally wrap it in
the compressed envelope.  Returns the body (`none` = io error) together
with the disk effects performed. -/
def build_local_asset_response (lib : Lib) (disk : FsPath → Option Bytes)
    (assetLocator : AssetLocator) (compress : Bool) : Option Bytes × List Effect :=
  let fileBuffer : Option Bytes × List Effect :=
    match assetLocator.kind with
    | .memory data => (some data, [])
    | .file f =>
      (match disk f.path with
       | none => none
       | some contents =>
         -- read_exact of `size` bytes after seeking to `data_offset`;
         -- an empty read trivially succeeds, otherwise the slice must lie
         -- within the file
         if f.size = 0 then some []
         else if f.data_offset + f.size ≤ contents.length then
           some ((contents.drop f.data_offset).take f.size)
         else none,
       [.diskRead f.path])
  match fileBuffer with
  | (none, effs) => (none, effs)
  | (some buf, effs) =>
    if compress then
      (some (be32 compressedMagic ++ be32 (buf.length % 2 ^ 32) ++
        lib.deflate zlibCompressionLevel buf), effs)
    else (some buf, effs)

/-- `decompress_asset_response` (src/src-tauri/src/http_proxy.rs lines
132-142): skip the 8-byte header and zlib-decompress the tail; data of
8 bytes or fewer is a decompression error. -/
def decompress_asset_response (lib : Lib) (fileData : Bytes) : Option Bytes :=
  if 8 < fileData.length then lib.inflate (fileData.drop 8) else none

/-- `request_remote_asset` (src/src-tauri/src/http_proxy.rs lines
319-342): join the tail onto `<origin>/assets/` (join failure is 400
with no request sent) and issue one GET, whose outcome the environment
supplies. -/
def request_remote_asset (env : ServeEnv) (pathAndQuery : Str) :
    Except Nat Bytes × List Effect :=
  if env.joinOk pathAndQuery then
    (env.upstream pathAndQuery, [.upstreamGet pathAndQuery])
  else (.error 400, [])

/-- The original request's URI, as axum exposes it:
`request.uri().path()` and `request.uri().query()`. -/
structure AssetRequest where
  uriPath : Str
  uriQuery : Option Str

/-- The handler's upstream tail: `path_and_query.path()` stripped of the
`/assets/` prefix (src/src-tauri/src/http_proxy.rs lines 379-389).  The
query string is not part of it.  `none` models the `expect` panic when
the prefix is absent (unreachable: the router only matches `/assets/*`). -/
def assetsTail (req : AssetRequest) : Option Str :=
  if ("/assets/".toList).isPrefixOf req.uriPath then
    some (req.uriPath.drop ("/assets/".toList).length)
  else none

/-- The local-lookup part of `retrieve_asset` (`possible_file_data`,
src/src-tauri/src/http_proxy.rs lines 361-374): decompose the name, look
it up, compare CRCs and attempt the local response. -/
def local_asset_attempt (lib : Lib) (env : ServeEnv) (comps : NPath) :
    Option Bytes × List Effect :=
  let d := decompose_extension comps
  match mapLookup env.assetMap (d.1.map FsComp.utf8) with
  | some assetLocator =>
    if d.2.2.getD assetLocator.crc = assetLocator.crc then
      build_local_asset_response lib env.disk assetLocator d.2.1
    else (none, [])
  | none => (none, [])

/-- `retrieve_asset` (src/src-tauri/src/http_proxy.rs lines 344-392):
reject paths with non-Normal components with 400, otherwise try the local
asset map and fall back to exactly one upstream GET.  The result pairs the
handler's `Result<Bytes, StatusCode>` with the effect trace; the outer
`none` models the `expect` panic on a missing `/assets/` prefix. -/
def retrieve_asset (lib : Lib) (env : ServeEnv) (assetName : List HComp)
    (req : AssetRequest) : Option (Except Nat Bytes × List Effect) :=
  if assetName.any (fun c => !c.isNormal) then some (.error 400, [])
  else
    match local_asset_attempt lib env (normalParts assetName) with
    | (some fileData, effs) => some (.ok fileData, effs)
    | (none, effs) =>
      match assetsTail req with
      | none => none
      | some tail =>
        let r := request_remote_asset env tail
        some (r.1, effs ++ r.2)

/-- `is_name_hash` (src/src-tauri/src/http_proxy.rs lines 394-402): a
component of byte length exactly 3 that parses as a `u16`.  Non-Normal
components render as `..`, `.`, `/` or a drive prefix and never satisfy
both conditions. -/
def is_name_hash (component : HComp) : Bool :=
  match component with
  | .normal s => strUtf8Len s = 3 && (rustParseUnsigned (2 ^ 16) s).isSome
  | _ => false

/-- The name-hash drop performed by `asset_handler`
(src/src-tauri/src/http_proxy.rs lines 409-418). -/
def dropNameHash (asset : List HComp) : List HComp :=
  if (asset.head?.map is_name_hash).getD false then asset.tail else asset

/-- `asset_handler` (src/src-tauri/src/http_proxy.rs lines 404-421). -/
def asset_handler (lib : Lib) (env : ServeEnv) (asset : List HComp)
    (req : AssetRequest) : Option (Except Nat Bytes × List Effect) :=
  retrieve_asset lib env (dropNameHash asset) req

/-! The asset index builder (src/src-tauri/src/http_proxy.rs
lines 144-251). -/

/-- `Path::file_name` of a relative path: its last component. -/
def fsFileName (p : FsPath) : Option FsComp :=
  p.getLast?

/-- `file_name_ends_with` (src/src-tauri/src/http_proxy.rs lines 119-130):
false when there is no file name or it is not valid UTF-8. -/
def file_name_ends_with (p : FsPath) (suffix : Str) : Bool :=
  match fsFileName p with
  | some (.utf8 s) => suffix.isSuffixOf s
  | _ => false

/-- `path.extension() == Some("pack")`: the extension of the (UTF-8) file
name equals `pack`. -/
def fsIsPack (p : FsPath) : Bool :=
  match fsFileName p with
  | some (.utf8 s) => rustExtension s = some ("pack".toList)
  | _ => false

/-- `Path::with_file_name` with a UTF-8 name, for a path that has a file
name: replace the last component. -/
def fsWithFileName (p : FsPath) (name : Str) : FsPath :=
  p.dropLast ++ [.utf8 name]

/-- `Path::to_str` of a relative path, with separators normalised to `/`
(the code replaces `\` by `/` afterwards): `none` when any component is
not valid UTF-8. -/
def fsPathToStr (p : FsPath) : Option Str :=
  match p with
  | [] => some []
  | [.utf8 s] => some s
  | .utf8 s :: rest =>
    (match fsPathToStr rest with
     | some r => some (s ++ '/' :: r)
     | none => none)
  | .nonUnicode _ :: _ => none

/-- A directory entry of a pack archive, as produced by
`list_assets_in_pack` and consumed by `build_asset_map`; `name` is the
`PathBuf` parsed from the entry's UTF-8 name. -/
structure PackAsset where
  name : FsPath
  data_offset : Nat
  size : Nat
  crc : Nat
deriving DecidableEq

/-- A file found by `list_files`, with its path relative to the client
folder and the contents `tokio::fs::read` returns for it. -/
structure FileEntry where
  path : FsPath
  data : Bytes
deriving DecidableEq

/-- Environment the index is built against: the files `list_files`
enumerates (in order), the parsed directory each spawned
`list_assets_in_pack` task returns, and the indexing-time remote fetch
(`request_remote_asset`: `some body` on HTTP 200, `none` on any other
status or network error). -/
structure BuildEnv where
  files : List FileEntry
  packOf : FsPath → List PackAsset
  remote : Str → Option Bytes

/-- `ascii_decimal`: `crc.to_string().as_bytes()`. -/
def asciiDecimal (n : Nat) : Bytes :=
  (Nat.repr n).toList.map Char.toNat

/-- The remote side of the manifest merge (src/src-tauri/src/http_proxy.rs
lines 174-193): `none` models the `?`-propagated io error that aborts
`build_asset_map` when a fetched manifest fails to decompress; a fetch
failure or a non-UTF-8 path contributes `some []`. -/
def remoteManifestSide (lib : Lib) (env : BuildEnv)
    (compressedManifestPath : FsPath) : Option Bytes :=
  match fsPathToStr compressedManifestPath with
  | some manifestPathStr =>
    (match env.remote manifestPathStr with
     | some remoteData => decompress_asset_response lib remoteData
     | none => some [])
  | none => some []

/-- The locator `build_asset_map` makes for a pack directory entry
(src/src-tauri/src/http_proxy.rs lines 239-246). -/
def packLocator (packPath : FsPath) (a : PackAsset) : AssetLocator :=
  ⟨a.crc, .file ⟨packPath, a.data_offset, a.size⟩⟩

/-- One iteration of the loose-file loop of `build_asset_map`
(src/src-tauri/src/http_proxy.rs lines 152-234).  The accumulator is the
map under construction plus the pack paths whose reader tasks were
spawned, in order; `none` is an aborting error. -/
def buildStep (lib : Lib) (env : BuildEnv) (acc : AssetMap × List FsPath)
    (e : FileEntry) : Option (AssetMap × List FsPath) :=
  if fsIsPack e.path then some (acc.1, acc.2 ++ [e.path])
  else if fsFileName e.path = some (.utf8 ("manifest.txt".toList)) then some acc
  else if file_name_ends_with e.path ("_manifest.txt".toList) then
    match remoteManifestSide lib env (fsWithFileName e.path ("manifest.txt.z".toList)) with
    | none => none
    | some remoteManifest =>
      let fileData := e.data ++ remoteManifest
      let crc := lib.crc32 fileData
      let m1 := mapInsert acc.1 (fsWithFileName e.path ("manifest.txt".toList))
        ⟨crc, .memory fileData⟩
      let crcFileData := asciiDecimal crc
      let m2 := mapInsert m1 (fsWithFileName e.path ("manifest.crc".toList))
        ⟨lib.crc32 crcFileData, .memory crcFileData⟩
      some (m2, acc.2)
  else if file_name_ends_with e.path ("manifest.crc".toList) then some acc
  else some
    (mapInsert acc.1 e.path
      ⟨lib.crc32 e.data, .file ⟨e.path, 0, e.data.length % 2 ^ 32⟩⟩,
     acc.2)

/-- The loose-file pass: fold `buildStep` over the enumerated files. -/
def loosePass (lib : Lib) (env : BuildEnv) : Option (AssetMap × List FsPath) :=
  env.files.foldlM (buildStep lib env) ([], [])

/-- Folding one pack-reader task's results into the map with
`entry().or_insert` (src/src-tauri/src/http_proxy.rs lines 236-248). -/
def packFoldOne (m : AssetMap) (packPath : FsPath) (assets : List PackAsset) : AssetMap :=
  assets.foldl (fun m2 a => mapInsertIfAbsent m2 a.name (packLocator packPath a)) m

/-- `build_asset_map` (src/src-tauri/src/http_proxy.rs lines 144-251):
loose-file pass first, then fold every pack's directory in task order. -/
def build_asset_map (lib : Lib) (env : BuildEnv) : Option AssetMap :=
  match loosePass lib env with
  | some (m, packs) => some (packs.foldl (fun m2 p => packFoldOne m2 p (env.packOf p)) m)
  | none => none

/-! The pack reader (src/src-tauri/src/http_proxy.rs lines 82-117),
modelled over the pack file's byte contents with an explicit read
position; the group loop carries fuel because the source loop has no
termination guarantee of its own. -/

/-- Read a big-endian `u32` at `pos` (`read_u32`); `none` is
`UnexpectedEof`. -/
def readU32 (c : Bytes) (pos : Nat) : Option Nat :=
  if pos + 4 ≤ c.length then
    some (c.getD pos 0 * 2 ^ 24 + c.getD (pos + 1) 0 * 2 ^ 16 +
      c.getD (pos + 2) 0 * 2 ^ 8 + c.getD (pos + 3) 0)
  else none

/-- `read_exact` of `len` bytes at `pos`; `none` is `UnexpectedEof`. -/
def readBytesAt (c : Bytes) (pos len : Nat) : Option Bytes :=
  if pos + len ≤ c.length then some ((c.drop pos).take len) else none

/-- A UTF-8 continuation byte. -/
def utf8Cont (b : Nat) : Bool :=
  0x80 ≤ b && b ≤ 0xbf

/-- Validity of a byte sequence as UTF-8 (`String::from_utf8` succeeds),
including the overlong and surrogate restrictions. -/
def utf8Valid : Bytes → Bool
  | [] => true
  | b :: rest =>
    if b < 0x80 then utf8Valid rest
    else if 0xc2 ≤ b && b ≤ 0xdf then
      match rest with
      | b2 :: r => utf8Cont b2 && utf8Valid r
      | [] => false
    else if b = 0xe0 then
      match rest with
      | b2 :: b3 :: r => (0xa0 ≤ b2 && b2 ≤ 0xbf) && utf8Cont b3 && utf8Valid r
      | _ => false
    else if (0xe1 ≤ b && b ≤ 0xec) || b = 0xee || b = 0xef then
      match rest with
      | b2 :: b3 :: r => utf8Cont b2 && utf8Cont b3 && utf8Valid r
      | _ => false
    else if b = 0xed then
      match rest with
      | b2 :: b3 :: r => (0x80 ≤ b2 && b2 ≤ 0x9f) && utf8Cont b3 && utf8Valid r
      | _ => false
    else if b = 0xf0 then
      match rest with
      | b2 :: b3 :: b4 :: r =>
        (0x90 ≤ b2 && b2 ≤ 0xbf) && utf8Cont b3 && utf8Cont b4 && utf8Valid r
      | _ => false
    else if 0xf1 ≤ b && b ≤ 0xf3 then
      match rest with
      | b2 :: b3 :: b4 :: r => utf8Cont b2 && utf8Cont b3 && utf8Cont b4 && utf8Valid r
      | _ => false
    else if b = 0xf4 then
      match rest with
      | b2 :: b3 :: b4 :: r =>
        (0x80 ≤ b2 && b2 ≤ 0x8f) && utf8Cont b3 && utf8Cont b4 && utf8Valid r
      | _ => false
    else false

/-- A pack directory record as the reader produces it (`Asset`, with the
name kept as the raw bytes the UTF-8 check accepted). -/
structure PackEntry where
  nameBytes : Bytes
  data_offset : Nat
  size : Nat
  crc : Nat
deriving DecidableEq

/-- The two error kinds `list_assets_in_pack` can produce. -/
inductive PackErr
  | unexpectedEof
  | invalidData
deriving DecidableEq

/-- The inner `for _ in 0..files_in_group` loop
(src/src-tauri/src/http_proxy.rs lines 90-107): read `count` directory
entries starting at `pos`, returning the position after them. -/
def readEntries (c : Bytes) : Nat → Nat → Except PackErr (Nat × List PackEntry)
  | 0, pos => .ok (pos, [])
  | count + 1, pos =>
    match readU32 c pos with
    | none => .error .unexpectedEof
    | some nameLen =>
      match readBytesAt c (pos + 4) nameLen with
      | none => .error .unexpectedEof
      | some nameBytes =>
        if utf8Valid nameBytes then
          match readU32 c (pos + 4 + nameLen), readU32 c (pos + 8 + nameLen),
              readU32 c (pos + 12 + nameLen) with
          | some dataOffset, some size, some crc =>
            (match readEntries c count (pos + 16 + nameLen) with
             | .ok (pos2, entries) =>
               .ok (pos2, ⟨nameBytes, dataOffset, size, crc⟩ :: entries)
             | .error e => .error e)
          | _, _, _ => .error .unexpectedEof
        else .error .invalidData

/-- The group-chain loop of `list_assets_in_pack`
(src/src-tauri/src/http_proxy.rs lines 86-114): read
`next_group_offset` and `files_in_group`, read the group's entries,
stop when the next offset is zero, otherwise seek to it.  `none` means
the fuel ran out with the loop still running. -/
def packLoop (c : Bytes) : Nat → Nat → List PackEntry →
    Option (Except PackErr (List PackEntry))
  | 0, _, _ => none
  | fuel + 1, pos, acc =>
    match readU32 c pos with
    | none => some (.error .unexpectedEof)
    | some nextGroupOffset =>
      match readU32 c (pos + 4) with
      | none => some (.error .unexpectedEof)
      | some filesInGroup =>
        match readEntries c filesInGroup (pos + 8) with
        | .error e => some (.error e)
        | .ok (_, entries) =>
          if nextGroupOffset = 0 then some (.ok (acc ++ entries))
          else packLoop c fuel nextGroupOffset (acc ++ entries)

/-- `list_assets_in_pack` on the pack's byte contents, with fuel bounding
the number of groups walked. -/
def list_assets_in_pack (c : Bytes) (fuel : Nat) :
    Option (Except PackErr (List PackEntry)) :=
  packLoop c fuel 0 []

/-- Divergence of the pack reader: no amount of fuel completes the walk
(the source loop never exits). -/
def packReaderDiverges (c : Bytes) : Prop :=
  ∀ fuel, list_assets_in_pack c fuel = none

/-- A pack contents whose reachable group chain only moves forward: every
group that parses and has a nonzero `next_group_offset` points strictly
past its own offset. -/
def ForwardChain (c : Bytes) : Prop :=
  ∀ pos nextGroupOffset, readU32 c pos = some nextGroupOffset →
    nextGroupOffset ≠ 0 → pos < nextGroupOffset

/-- The first entry with key `k` in one pack's directory list, as the
locator `build_asset_map` would make for it. -/
def firstHitIn (packPath : FsPath) (assets : List PackAsset) (k : FsPath) :
    Option AssetLocator :=
  match assets with
  | [] => none
  | a :: rest =>
    if a.name = k then some (packLocator packPath a) else firstHitIn packPath rest k

/-- The first pack entry with key `k` over the folded packs, in task
order. -/
def firstPackHit (env : BuildEnv) (packs : List FsPath) (k : FsPath) :
    Option AssetLocator :=
  match packs with
  | [] => none
  | p :: rest =>
    match firstHitIn p (env.packOf p) k with
    | some v => some v
    | none => firstPackHit env rest k

/-- A 16-byte pack whose first group points at offset 8 and whose group
at offset 8 points back at offset 8: the reader's group chain never
reaches a zero `next_group_offset`. -/
def cyclicPack : Bytes := [0, 0, 0, 8, 0, 0, 0, 0, 0, 0, 0, 8, 0, 0, 0, 0]

/-! Concrete instantiations used by the witnesses. -/

/-- A concrete library: crc32 constantly 0, deflate prepends one byte,
inflate drops it (so the round-trip laws hold definitionally). -/
def lib0 : Lib :=
  ⟨fun _ => 0, fun _ b => 0 :: b, fun b => some (b.drop 1)⟩

/-- A concrete serving environment with an empty asset map. -/
def env0 : ServeEnv :=
  ⟨[], fun _ => none, fun _ => .error 404, fun _ => true⟩

/-- A concrete indexing environment for the C7 witness: one loose file
`a.txt` and one pack `w.pack` whose directory lists `a.txt` (shadowed by
the loose file) and `b.bin` twice (the first entry wins). -/
def envC7 : BuildEnv :=
  ⟨[⟨[.utf8 ("a.txt".toList)], [65]⟩, ⟨[.utf8 ("w.pack".toList)], []⟩],
   fun p => if p = [.utf8 ("w.pack".toList)] then
      [⟨[.utf8 ("a.txt".toList)], 10, 1, 3⟩,
       ⟨[.utf8 ("b.bin".toList)], 20, 2, 4⟩,
       ⟨[.utf8 ("b.bin".toList)], 30, 5, 6⟩]
    else [],
   fun _ => none⟩

/-- A concrete indexing environment for the C3 witness: one local file
`data/foo_manifest.txt` with contents `L` (byte 76), no packs, and a
remote origin whose every fetch fails. -/
def envC3 : BuildEnv :=
  ⟨[⟨[.utf8 ("data".toList), .utf8 ("foo_manifest.txt".toList)], [76]⟩],
   fun _ => [], fun _ => none⟩

/-! Helper lemmas. -/

theorem mapLookup_insert (m : AssetMap) (k k2 : FsPath) (v : AssetLocator) :
    mapLookup (mapInsert m k v) k2 = if k = k2 then some v else mapLookup m k2 :=
  rfl

theorem concat_eq_concat_iff {xs ys : FsPath} {a b : FsComp} :
    xs ++ [a] = ys ++ [b] ↔ xs = ys ∧ a = b := by
  constructor
  · intro h
    have h2 := congrArg List.reverse h
    simp at h2
    exact ⟨h2.2, h2.1⟩
  · rintro ⟨rfl, rfl⟩
    rfl

/-- The local lookup performs no upstream GET. -/
theorem upstreamCalls_build_local (lib : Lib) (disk : FsPath → Option Bytes)
    (loc : AssetLocator) (compress : Bool) :
    upstreamCalls (build_local_asset_response lib disk loc compress).2 = [] := by
  unfold build_local_asset_response
  rcases loc with ⟨crc, kind⟩
  cases kind with
  | memory data =>
    cases compress <;> simp [upstreamCalls]
  | file f =>
    cases hd : disk f.path with
    | none => simp [hd, upstreamCalls]
    | some contents =>
      by_cases h0 : f.size = 0 <;>
        by_cases hle : f.data_offset + f.size ≤ contents.length <;>
          cases compress <;> simp [hd, h0, hle, upstreamCalls]

theorem upstreamCalls_local_attempt (lib : Lib) (env : ServeEnv) (comps : NPath) :
    upstreamCalls (local_asset_attempt lib env comps).2 = [] := by
  unfold local_asset_attempt
  cases hl : mapLookup env.assetMap ((decompose_extension comps).1.map FsComp.utf8) with
  | none => simp [hl, upstreamCalls]
  | some loc =>
    simp only [hl]
    by_cases hc : ((decompose_extension comps).2.2.getD loc.crc) = loc.crc
    · simp only [if_pos hc]
      exact upstreamCalls_build_local lib env.disk loc (decompose_extension comps).2.1
    · simp [hc, upstreamCalls]

/-! Claim C1. -/

/-- C1: when the asset path, after the optional 3-character name-hash
first component is dropped, contains any component that is not a Normal
path component, the handler returns status 400 and performs no disk read
and no upstream GET (its effect trace is empty). -/
theorem c1_invalid_path_rejected_without_io (lib : Lib) (env : ServeEnv)
    (asset : List HComp) (req : AssetRequest)
    (h : (dropNameHash asset).any (fun c => !c.isNormal) = true) :
    asset_handler lib env asset req = some (.error 400, []) := by
  simp [asset_handler, retrieve_asset, h]

/-- C1 witness: `GET /assets/../secret` is rejected with 400 and an empty
effect trace. -/
theorem c1_invalid_path_rejected_without_io_witness :
    (dropNameHash [HComp.parentDir, HComp.normal ("secret".toList)]).any
      (fun c => !c.isNormal) = true
    ∧ asset_handler lib0 env0 [HComp.parentDir, HComp.normal ("secret".toList)]
        ⟨"/assets/../secret".toList, none⟩ = some (.error 400, []) :=
  ⟨by decide,
   c1_invalid_path_rejected_without_io lib0 env0
     [HComp.parentDir, HComp.normal ("secret".toList)]
     ⟨"/assets/../secret".toList, none⟩ (by decide)⟩

/-! Claim C2. -/

/-- C2 counterexample: for the asset path `a.x_y` the part right of the
rightmost `_` does not parse as a u32, yet the asset name is changed:
the `_y` suffix is stripped, contradicting the claim that the name is
left unchanged in that case. -/
theorem c2_counterexample_underscore_stripped :
    (decompose_extension [("a.x_y".toList)]).2.2 = none
    ∧ (decompose_extension [("a.x_y".toList)]).1 ≠ [("a.x_y".toList)]
    ∧ (decompose_extension [("a.x_y".toList)]).1 = [("a.x".toList)] := by
  decide

/-- C2 (amended): whenever the terminal extension contains `_`, the
decoder splits it at the rightmost `_` and replaces the extension by the
left side unconditionally; the right side becomes the queried CRC exactly
when it parses as a u32, and otherwise no CRC is queried (but the `_`
suffix is still stripped). -/
theorem c2_crc_suffix_decomposition (assetName : NPath)
    (extensionStr realExtension crcStr : Str)
    (hext : pathExtension assetName = some extensionStr)
    (hsplit : rsplitOnceChar extensionStr '_' = some (realExtension, crcStr)) :
    decomposeCrcStage assetName =
      (pathWithExtension assetName realExtension, rustParseUnsigned (2 ^ 32) crcStr)
    ∧ (rustParseUnsigned (2 ^ 32) crcStr = none →
        (decomposeCrcStage assetName).1 = pathWithExtension assetName realExtension) := by
  refine ⟨?_, ?_⟩ <;> simp [decomposeCrcStage, hext, hsplit]

/-- C2 witness: instantiation at `logo.dds_123` (whose extension
`dds_123` splits into `dds` and the parsing CRC `123`). -/
theorem c2_crc_suffix_decomposition_witness :
    decomposeCrcStage [("logo.dds_123".toList)] =
      (pathWithExtension [("logo.dds_123".toList)] ("dds".toList),
        rustParseUnsigned (2 ^ 32) ("123".toList))
    ∧ (rustParseUnsigned (2 ^ 32) ("123".toList) = none →
        (decomposeCrcStage [("logo.dds_123".toList)]).1 =
          pathWithExtension [("logo.dds_123".toList)] ("dds".toList)) :=
  c2_crc_suffix_decomposition [("logo.dds_123".toList)] ("dds_123".toList)
    ("dds".toList) ("123".toList) (by decide) (by decide)

/-! Claim C8. -/

/-- C8: with `compress=true` the response builder produces the 4-byte
big-endian magic `0xA1B2C3D4`, then the 4-byte big-endian (u32-cast)
length of the body, then the zlib stream; and decoding that envelope
(skipping the 8-byte header and zlib-decompressing the tail) yields the
body exactly, assuming the zlib round-trip law for the external library
and that its compressed streams are nonempty (real zlib output always
is). -/
theorem c8_envelope_roundtrip (lib : Lib) (disk : FsPath → Option Bytes)
    (crc : Nat) (B : Bytes)
    (hround : lib.inflate (lib.deflate zlibCompressionLevel B) = some B)
    (hne : lib.deflate zlibCompressionLevel B ≠ []) :
    build_local_asset_response lib disk ⟨crc, .memory B⟩ true =
      (some ([0xa1, 0xb2, 0xc3, 0xd4] ++ be32 (B.length % 2 ^ 32) ++
        lib.deflate zlibCompressionLevel B), [])
    ∧ decompress_asset_response lib
        ([0xa1, 0xb2, 0xc3, 0xd4] ++ be32 (B.length % 2 ^ 32) ++
          lib.deflate zlibCompressionLevel B) = some B := by
  have hmagic : be32 compressedMagic = [0xa1, 0xb2, 0xc3, 0xd4] := by decide
  constructor
  · simp [build_local_asset_response, hmagic]
  · have hlen8 : ([0xa1, 0xb2, 0xc3, 0xd4] ++ be32 (B.length % 2 ^ 32)).length = 8 := by
      simp [be32]
    have hassoc : [0xa1, 0xb2, 0xc3, 0xd4] ++ be32 (B.length % 2 ^ 32) ++
        lib.deflate zlibCompressionLevel B =
        ([0xa1, 0xb2, 0xc3, 0xd4] ++ be32 (B.length % 2 ^ 32)) ++
          lib.deflate zlibCompressionLevel B := by
      simp
    rw [decompress_asset_response, hassoc]
    have hdroplen : (([0xa1, 0xb2, 0xc3, 0xd4] ++ be32 (B.length % 2 ^ 32)) ++
        lib.deflate zlibCompressionLevel B).drop 8 = lib.deflate zlibCompressionLevel B := by
      rw [← hlen8]
      exact List.drop_left _ _
    have hgt : 8 < (([0xa1, 0xb2, 0xc3, 0xd4] ++ be32 (B.length % 2 ^ 32)) ++
        lib.deflate zlibCompressionLevel B).length := by
      rw [List.length_append, hlen8]
      have : 0 < (lib.deflate zlibCompressionLevel B).length :=
        List.length_pos.mpr hne
      omega
    rw [if_pos hgt, hdroplen, hround]

/-- C8 witness: the round-trip at the body `[7, 8]` with the concrete
library `lib0`. -/
theorem c8_envelope_roundtrip_witness :
    build_local_asset_response lib0 (fun _ => none) ⟨0, .memory [7, 8]⟩ true =
      (some ([0xa1, 0xb2, 0xc3, 0xd4] ++ be32 (([7, 8] : Bytes).length % 2 ^ 32) ++
        lib0.deflate zlibCompressionLevel [7, 8]), [])
    ∧ decompress_asset_response lib0
        ([0xa1, 0xb2, 0xc3, 0xd4] ++ be32 (([7, 8] : Bytes).length % 2 ^ 32) ++
          lib0.deflate zlibCompressionLevel [7, 8]) = some [7, 8] :=
  c8_envelope_roundtrip lib0 (fun _ => none) 0 [7, 8] (by decide) (by decide)

/-- Serving a file-slice locator whose slice lies within the file,
uncompressed: the body is the `size`-byte slice at `data_offset`, with
exactly one disk read. -/
theorem build_local_file_uncompressed (lib : Lib) (disk : FsPath → Option Bytes)
    (crc : Nat) (p : FsPath) (off size : Nat) (contents : Bytes)
    (hd : disk p = some contents) (hle : off + size ≤ contents.length) :
    build_local_asset_response lib disk ⟨crc, .file ⟨p, off, size⟩⟩ false =
      (some ((contents.drop off).take size), [.diskRead p]) := by
  by_cases h0 : size = 0
  · subst h0
    simp [build_local_asset_response, hd]
  · simp [build_local_asset_response, hd, h0, hle]

/-- Serving a file-slice locator whose slice lies within the file, with
the compressed envelope. -/
theorem build_local_file_compressed (lib : Lib) (disk : FsPath → Option Bytes)
    (crc : Nat) (p : FsPath) (off size : Nat) (contents : Bytes)
    (hd : disk p = some contents) (hle : off + size ≤ contents.length) :
    build_local_asset_response lib disk ⟨crc, .file ⟨p, off, size⟩⟩ true =
      (some (be32 compressedMagic ++ be32 (size % 2 ^ 32) ++
        lib.deflate zlibCompressionLevel ((contents.drop off).take size)),
       [.diskRead p]) := by
  have hlen : ((contents.drop off).take size).length = size := by
    rw [List.length_take, List.length_drop]
    omega
  by_cases h0 : size = 0
  · subst h0
    simp [build_local_asset_response, hd]
  · simp [build_local_asset_response, hd, h0, hle, hlen]

/-! Claim C10. -/

/-- C10: a loose file is indexed with stored size equal to its length
reduced modulo 2^32 (the `as u32` cast), and serving it reads only that
many bytes: the uncompressed body is the first `length mod 2^32` bytes of
the file, and the compressed envelope's `uncompressed_len` field encodes
the same truncated value. -/
theorem c10_loose_size_wraps_mod_u32 (lib : Lib) (env : BuildEnv)
    (acc : AssetMap × List FsPath) (e : FileEntry)
    (hpack : fsIsPack e.path = false)
    (hman1 : fsFileName e.path ≠ some (.utf8 ("manifest.txt".toList)))
    (hman2 : file_name_ends_with e.path ("_manifest.txt".toList) = false)
    (hman3 : file_name_ends_with e.path ("manifest.crc".toList) = false)
    (disk : FsPath → Option Bytes) (hdisk : disk e.path = some e.data) :
    buildStep lib env acc e = some
      (mapInsert acc.1 e.path
        ⟨lib.crc32 e.data, .file ⟨e.path, 0, e.data.length % 2 ^ 32⟩⟩, acc.2)
    ∧ build_local_asset_response lib disk
        ⟨lib.crc32 e.data, .file ⟨e.path, 0, e.data.length % 2 ^ 32⟩⟩ false =
      (some (e.data.take (e.data.length % 2 ^ 32)), [.diskRead e.path])
    ∧ build_local_asset_response lib disk
        ⟨lib.crc32 e.data, .file ⟨e.path, 0, e.data.length % 2 ^ 32⟩⟩ true =
      (some (be32 compressedMagic ++ be32 (e.data.length % 2 ^ 32) ++
        lib.deflate zlibCompressionLevel (e.data.take (e.data.length % 2 ^ 32))),
       [.diskRead e.path]) := by
  have hmod : e.data.length % 2 ^ 32 ≤ e.data.length := Nat.mod_le _ _
  have hlt : e.data.length % 2 ^ 32 < 2 ^ 32 := Nat.mod_lt _ (by norm_num)
  have h1 : ¬ (fsIsPack e.path = true) := fun hc => by
    rw [hpack] at hc
    exact Bool.noConfusion hc
  have h2 : ¬ (file_name_ends_with e.path ("_manifest.txt".toList) = true) := fun hc => by
    rw [hman2] at hc
    exact Bool.noConfusion hc
  have h3 : ¬ (file_name_ends_with e.path ("manifest.crc".toList) = true) := fun hc => by
    rw [hman3] at hc
    exact Bool.noConfusion hc
  have hb := build_local_file_uncompressed lib disk (lib.crc32 e.data) e.path 0
    (e.data.length % 2 ^ 32) e.data hdisk (by omega)
  have hb2 := build_local_file_compressed lib disk (lib.crc32 e.data) e.path 0
    (e.data.length % 2 ^ 32) e.data hdisk (by omega)
  refine ⟨?_, ?_, ?_⟩
  · simp only [buildStep, if_neg h1, if_neg hman1, if_neg h2, if_neg h3]
  · rw [hb, List.drop_zero]
  · rw [hb2, List.drop_zero, Nat.mod_eq_of_lt hlt]

/-- C10 witness: a concrete 3-byte loose file (3 mod 2^32 = 3). -/
theorem c10_loose_size_wraps_mod_u32_witness :
    buildStep lib0 ⟨[], fun _ => [], fun _ => none⟩ ([], [])
      ⟨[.utf8 ("a.dat".toList)], [5, 6, 7]⟩ = some
      (mapInsert [] [.utf8 ("a.dat".toList)]
        ⟨lib0.crc32 [5, 6, 7],
         .file ⟨[.utf8 ("a.dat".toList)], 0, ([5, 6, 7] : Bytes).length % 2 ^ 32⟩⟩, [])
    ∧ build_local_asset_response lib0
        (fun p => if p = [.utf8 ("a.dat".toList)] then some [5, 6, 7] else none)
        ⟨lib0.crc32 [5, 6, 7],
         .file ⟨[.utf8 ("a.dat".toList)], 0, ([5, 6, 7] : Bytes).length % 2 ^ 32⟩⟩ false =
      (some (([5, 6, 7] : Bytes).take (([5, 6, 7] : Bytes).length % 2 ^ 32)),
       [.diskRead [.utf8 ("a.dat".toList)]])
    ∧ build_local_asset_response lib0
        (fun p => if p = [.utf8 ("a.dat".toList)] then some [5, 6, 7] else none)
        ⟨lib0.crc32 [5, 6, 7],
         .file ⟨[.utf8 ("a.dat".toList)], 0, ([5, 6, 7] : Bytes).length % 2 ^ 32⟩⟩ true =
      (some (be32 compressedMagic ++ be32 (([5, 6, 7] : Bytes).length % 2 ^ 32) ++
        lib0.deflate zlibCompressionLevel
          (([5, 6, 7] : Bytes).take (([5, 6, 7] : Bytes).length % 2 ^ 32))),
       [.diskRead [.utf8 ("a.dat".toList)]]) :=
  c10_loose_size_wraps_mod_u32 lib0 ⟨[], fun _ => [], fun _ => none⟩ ([], [])
    ⟨[.utf8 ("a.dat".toList)], [5, 6, 7]⟩ (by decide) (by decide) (by decide) (by decide)
    (fun p => if p = [.utf8 ("a.dat".toList)] then some [5, 6, 7] else none) (by decide)

/-! Claim C5. -/

/-- C5: for a decoded key present in the asset map, the handler builds
the response from the local locator if and only if no CRC was queried or
the queried CRC equals the locator's stored CRC (first conjunct: under
that condition a successful local build is returned as 200 with its
body); when a queried CRC differs from the stored CRC, the request falls
through to the upstream origin without touching the disk (second
conjunct: the whole outcome and effect trace are those of the single
upstream call). -/
theorem c5_crc_gate_controls_local_serve (lib : Lib) (env : ServeEnv)
    (assetName : List HComp) (req : AssetRequest)
    (hvalid : assetName.any (fun c => !c.isNormal) = false)
    (loc : AssetLocator)
    (hloc : mapLookup env.assetMap
      ((decompose_extension (normalParts assetName)).1.map FsComp.utf8) = some loc) :
    (((decompose_extension (normalParts assetName)).2.2 = none ∨
      (decompose_extension (normalParts assetName)).2.2 = some loc.crc) →
      ∀ B effs, build_local_asset_response lib env.disk loc
          (decompose_extension (normalParts assetName)).2.1 = (some B, effs) →
        retrieve_asset lib env assetName req = some (.ok B, effs))
    ∧ (∀ c, (decompose_extension (normalParts assetName)).2.2 = some c →
        c ≠ loc.crc → ∀ tail, assetsTail req = some tail →
          retrieve_asset lib env assetName req =
            some ((request_remote_asset env tail).1, (request_remote_asset env tail).2)) := by
  have hval2 : ¬ (assetName.any (fun c => !c.isNormal) = true) := fun hc => by
    rw [hvalid] at hc
    exact Bool.noConfusion hc
  constructor
  · intro hq B effs hbuild
    have hgate : (decompose_extension (normalParts assetName)).2.2.getD loc.crc =
        loc.crc := by
      rcases hq with h | h <;> rw [h] <;> rfl
    have hla : local_asset_attempt lib env (normalParts assetName) = (some B, effs) := by
      unfold local_asset_attempt
      simp only [hloc, hgate, if_pos]
      exact hbuild
    unfold retrieve_asset
    rw [if_neg hval2, hla]
  · intro c hc hne tail htail
    have hla : local_asset_attempt lib env (normalParts assetName) = (none, []) := by
      unfold local_asset_attempt
      simp only [hloc, hc]
      rw [if_neg]
      exact fun h => hne (by simpa using h)
    unfold retrieve_asset
    rw [if_neg hval2, hla, htail]
    simp

/-- C5 witness: a 1-entry asset map; the stored CRC is 5; a request for
`a_7` (queried CRC 7) falls through to the upstream origin. -/
theorem c5_crc_gate_controls_local_serve_witness :
    (((decompose_extension (normalParts [HComp.normal ("a.dds_7".toList)])).2.2 = none ∨
      (decompose_extension (normalParts [HComp.normal ("a.dds_7".toList)])).2.2 =
        some (AssetLocator.mk 5 (.memory [9])).crc) →
      ∀ B effs, build_local_asset_response lib0
          (ServeEnv.mk [([.utf8 ("a.dds".toList)], ⟨5, .memory [9]⟩)]
            (fun _ => none) (fun _ => .error 404) (fun _ => true)).disk
          ⟨5, .memory [9]⟩
          (decompose_extension (normalParts [HComp.normal ("a.dds_7".toList)])).2.1 =
          (some B, effs) →
        retrieve_asset lib0
          (ServeEnv.mk [([.utf8 ("a.dds".toList)], ⟨5, .memory [9]⟩)]
            (fun _ => none) (fun _ => .error 404) (fun _ => true))
          [HComp.normal ("a.dds_7".toList)] ⟨"/assets/a.dds_7".toList, none⟩ =
          some (.ok B, effs))
    ∧ (∀ c, (decompose_extension (normalParts [HComp.normal ("a.dds_7".toList)])).2.2 =
          some c →
        c ≠ (AssetLocator.mk 5 (.memory [9])).crc →
        ∀ tail, assetsTail ⟨"/assets/a.dds_7".toList, none⟩ = some tail →
          retrieve_asset lib0
            (ServeEnv.mk [([.utf8 ("a.dds".toList)], ⟨5, .memory [9]⟩)]
              (fun _ => none) (fun _ => .error 404) (fun _ => true))
            [HComp.normal ("a.dds_7".toList)] ⟨"/assets/a.dds_7".toList, none⟩ =
            some ((request_remote_asset
              (ServeEnv.mk [([.utf8 ("a.dds".toList)], ⟨5, .memory [9]⟩)]
                (fun _ => none) (fun _ => .error 404) (fun _ => true)) tail).1,
              (request_remote_asset
                (ServeEnv.mk [([.utf8 ("a.dds".toList)], ⟨5, .memory [9]⟩)]
                  (fun _ => none) (fun _ => .error 404) (fun _ => true)) tail).2)) :=
  c5_crc_gate_controls_local_serve lib0
    (ServeEnv.mk [([.utf8 ("a.dds".toList)], ⟨5, .memory [9]⟩)]
      (fun _ => none) (fun _ => .error 404) (fun _ => true))
    [HComp.normal ("a.dds_7".toList)] ⟨"/assets/a.dds_7".toList, none⟩ (by decide)
    ⟨5, .memory [9]⟩ (by decide)

/-! Claim C6. -/

/-- C6: when the CRC gate passes but building the local response fails
(file open, seek, or read failure), the handler returns exactly the
outcome of the single upstream call — never a locally produced 5xx — with
the local disk effects followed by the upstream GET in the trace. -/
theorem c6_local_io_error_falls_through (lib : Lib) (env : ServeEnv)
    (assetName : List HComp) (req : AssetRequest)
    (hvalid : assetName.any (fun c => !c.isNormal) = false)
    (loc : AssetLocator)
    (hloc : mapLookup env.assetMap
      ((decompose_extension (normalParts assetName)).1.map FsComp.utf8) = some loc)
    (hgate : (decompose_extension (normalParts assetName)).2.2.getD loc.crc = loc.crc)
    (effs : List Effect)
    (hfail : build_local_asset_response lib env.disk loc
      (decompose_extension (normalParts assetName)).2.1 = (none, effs))
    (tail : Str) (htail : assetsTail req = some tail) :
    retrieve_asset lib env assetName req =
      some ((request_remote_asset env tail).1,
        effs ++ (request_remote_asset env tail).2) := by
  have hval2 : ¬ (assetName.any (fun c => !c.isNormal) = true) := fun hc => by
    rw [hvalid] at hc
    exact Bool.noConfusion hc
  have hla : local_asset_attempt lib env (normalParts assetName) = (none, effs) := by
    unfold local_asset_attempt
    simp only [hloc, hgate, if_pos]
    exact hfail
  unfold retrieve_asset
  rw [if_neg hval2, hla, htail]

/-- C6 witness: a file-backed locator whose file cannot be opened; the
client receives the upstream outcome (404 here). -/
theorem c6_local_io_error_falls_through_witness :
    retrieve_asset lib0
      (ServeEnv.mk [([.utf8 ("b".toList)], ⟨0, .file ⟨[.utf8 ("b".toList)], 0, 5⟩⟩)]
        (fun _ => none) (fun _ => .error 404) (fun _ => true))
      [HComp.normal ("b".toList)] ⟨"/assets/b".toList, none⟩ =
      some ((request_remote_asset
        (ServeEnv.mk [([.utf8 ("b".toList)], ⟨0, .file ⟨[.utf8 ("b".toList)], 0, 5⟩⟩)]
          (fun _ => none) (fun _ => .error 404) (fun _ => true)) ("b".toList)).1,
        [.diskRead [.utf8 ("b".toList)]] ++
          (request_remote_asset
            (ServeEnv.mk [([.utf8 ("b".toList)], ⟨0, .file ⟨[.utf8 ("b".toList)], 0, 5⟩⟩)]
              (fun _ => none) (fun _ => .error 404) (fun _ => true)) ("b".toList)).2) :=
  c6_local_io_error_falls_through lib0
    (ServeEnv.mk [([.utf8 ("b".toList)], ⟨0, .file ⟨[.utf8 ("b".toList)], 0, 5⟩⟩)]
      (fun _ => none) (fun _ => .error 404) (fun _ => true))
    [HComp.normal ("b".toList)] ⟨"/assets/b".toList, none⟩ (by decide)
    ⟨0, .file ⟨[.utf8 ("b".toList)], 0, 5⟩⟩ (by decide) (by decide)
    [.diskRead [.utf8 ("b".toList)]] (by decide) ("b".toList) (by decide)

/-! Claim C4. -/

/-- C4 counterexample: for `GET /assets/a?v=1` with an empty asset map,
the single upstream GET uses the path `a` — the query string `?v=1` is
dropped, while the claim requires the upstream path to include it
(`a?v=1`). -/
theorem c4_counterexample_query_dropped :
    retrieve_asset lib0 env0 [HComp.normal ("a".toList)]
      ⟨"/assets/a".toList, some ("v=1".toList)⟩ =
      some (.error 404, [.upstreamGet ("a".toList)])
    ∧ ("a".toList : Str) ≠ ("a?v=1".toList) := by
  refine ⟨?_, by decide⟩
  rfl

/-- C4 (amended): for every request not satisfied locally (key missing,
queried CRC mismatch, or local I/O failure), the handler issues exactly
one upstream GET, whose path equals the original request's path after
the `/assets/` prefix with the query string omitted (the handler forwards
only the URI path), and returns that call's outcome. -/
theorem c4_fallback_single_upstream_get (lib : Lib) (env : ServeEnv)
    (assetName : List HComp) (req : AssetRequest)
    (hvalid : assetName.any (fun c => !c.isNormal) = false)
    (hmiss : (local_asset_attempt lib env (normalParts assetName)).1 = none)
    (hpre : ("/assets/".toList).isPrefixOf req.uriPath = true)
    (hjoin : env.joinOk (req.uriPath.drop 8) = true) :
    ∃ res, retrieve_asset lib env assetName req = some res ∧
      upstreamCalls res.2 = [req.uriPath.drop 8] ∧
      res.1 = env.upstream (req.uriPath.drop 8) := by
  have hval2 : ¬ (assetName.any (fun c => !c.isNormal) = true) := fun hc => by
    rw [hvalid] at hc
    exact Bool.noConfusion hc
  have h8 : ("/assets/".toList : Str).length = 8 := by decide
  have htail : assetsTail req = some (req.uriPath.drop 8) := by
    unfold assetsTail
    rw [if_pos hpre, h8]
  have hla : local_asset_attempt lib env (normalParts assetName) =
      (none, (local_asset_attempt lib env (normalParts assetName)).2) := by
    rw [← hmiss]
  have hreq : request_remote_asset env (req.uriPath.drop 8) =
      (env.upstream (req.uriPath.drop 8), [.upstreamGet (req.uriPath.drop 8)]) := by
    unfold request_remote_asset
    rw [if_pos hjoin]
  refine ⟨(env.upstream (req.uriPath.drop 8),
    (local_asset_attempt lib env (normalParts assetName)).2 ++
      [.upstreamGet (req.uriPath.drop 8)]), ?_, ?_, rfl⟩
  · unfold retrieve_asset
    rw [if_neg hval2, hla, htail]
    simp only [hreq]
  · show upstreamCalls (_ ++ _) = _
    unfold upstreamCalls
    rw [List.filterMap_append]
    have h0 := upstreamCalls_local_attempt lib env (normalParts assetName)
    unfold upstreamCalls at h0
    rw [h0]
    rfl

/-- C4 witness: a missing key with an empty map; the upstream GET path is
exactly `x`, the path after `/assets/`. -/
theorem c4_fallback_single_upstream_get_witness :
    ∃ res, retrieve_asset lib0 env0 [HComp.normal ("x".toList)]
      ⟨"/assets/x".toList, none⟩ = some res ∧
      upstreamCalls res.2 = [("/assets/x".toList : Str).drop 8] ∧
      res.1 = env0.upstream (("/assets/x".toList : Str).drop 8) :=
  c4_fallback_single_upstream_get lib0 env0 [HComp.normal ("x".toList)]
    ⟨"/assets/x".toList, none⟩ (by decide) (by decide) (by decide) (by decide)

/-! Claim C9. -/

theorem packLoop_cyclicPack_stuck (fuel : Nat) (acc : List PackEntry) :
    packLoop cyclicPack fuel 8 acc = none := by
  induction fuel generalizing acc with
  | zero => rfl
  | succ n ih =>
    have h1 : readU32 cyclicPack 8 = some 8 := by decide
    have h2 : readU32 cyclicPack (8 + 4) = some 0 := by decide
    simp only [packLoop, h1, h2]
    simpa using ih (acc ++ [])

/-- C9 counterexample: the claim asserts the reader terminates on every
finite pack contents, but on `cyclicPack` (a finite 16-byte file whose
group chain revisits offset 8 forever) it never returns: no amount of
fuel completes the walk, because the seek target repeats. -/
theorem c9_counterexample_cyclic_pack_diverges : packReaderDiverges cyclicPack := by
  intro fuel
  cases fuel with
  | zero => rfl
  | succ n =>
    have h1 : readU32 cyclicPack 0 = some 8 := by decide
    have h2 : readU32 cyclicPack (0 + 4) = some 0 := by decide
    unfold list_assets_in_pack
    simp only [packLoop, h1, h2]
    simpa using packLoop_cyclicPack_stuck n []

theorem readU32_le (c : Bytes) (pos v : Nat) (h : readU32 c pos = some v) :
    pos + 4 ≤ c.length := by
  unfold readU32 at h
  by_cases hle : pos + 4 ≤ c.length
  · exact hle
  · rw [if_neg hle] at h
    exact Option.noConfusion h

theorem packLoop_total (c : Bytes) (h : ForwardChain c) :
    ∀ fuel pos acc, c.length - pos < fuel → packLoop c fuel pos acc ≠ none := by
  intro fuel
  induction fuel with
  | zero =>
    intro pos acc hlt
    exact absurd hlt (Nat.not_lt_zero _)
  | succ n ih =>
    intro pos acc hlt
    cases hr : readU32 c pos with
    | none => simp [packLoop, hr]
    | some next =>
      cases hr2 : readU32 c (pos + 4) with
      | none => simp [packLoop, hr, hr2]
      | some count =>
        cases hr3 : readEntries c count (pos + 8) with
        | error e => simp [packLoop, hr, hr2, hr3]
        | ok pr =>
          obtain ⟨pos2, entries⟩ := pr
          by_cases hz : next = 0
          · simp [packLoop, hr, hr2, hr3, hz]
          · have hlt2 : pos < next := h pos next hr hz
            have hb : pos + 4 ≤ c.length := readU32_le c pos next hr
            have hm : c.length - next < n := by omega
            simp only [packLoop, hr, hr2, hr3]
            rw [if_neg hz]
            exact ih next (acc ++ entries) hm

/-- C9 (amended): the pack reader walks the group chain from offset 0 and
terminates — returning a record list or an I/O error — on every finite
pack contents whose group chain only moves forward (each parsed nonzero
`next_group_offset` is strictly greater than the offset it was read at);
`c.length + 1` loop iterations always suffice.  Without that condition
the reader can loop forever, as `cyclicPack` shows. -/
theorem c9_forward_chain_reader_terminates (c : Bytes) (h : ForwardChain c) :
    list_assets_in_pack c (c.length + 1) ≠ none := by
  unfold list_assets_in_pack
  exact packLoop_total c h (c.length + 1) 0 [] (by omega)

/-- C9 witness: a single empty terminal group terminates within the fuel
bound. -/
theorem c9_forward_chain_reader_terminates_witness :
    ForwardChain [0, 0, 0, 0, 0, 0, 0, 0]
    ∧ list_assets_in_pack [0, 0, 0, 0, 0, 0, 0, 0]
        (([0, 0, 0, 0, 0, 0, 0, 0] : Bytes).length + 1) ≠ none :=
  have hf : ForwardChain [0, 0, 0, 0, 0, 0, 0, 0] := by
    intro pos next h1 h2
    exfalso
    apply h2
    have hb : pos + 4 ≤ 8 := by simpa using readU32_le _ pos next h1
    have hp : pos ≤ 4 := by omega
    interval_cases pos <;> (simp [readU32] at h1; omega)
  ⟨hf, c9_forward_chain_reader_terminates _ hf⟩

/-! Claim C7. -/

theorem insertIfAbsent_pres_some (m : AssetMap) (k k2 : FsPath) (v v2 : AssetLocator)
    (h : mapLookup m k2 = some v2) :
    mapLookup (mapInsertIfAbsent m k v) k2 = some v2 := by
  unfold mapInsertIfAbsent
  by_cases hp : (mapLookup m k).isSome
  · rw [if_pos hp]
    exact h
  · rw [if_neg hp, mapLookup_insert]
    by_cases he : k = k2
    · subst he
      rw [h] at hp
      exact (hp (by simp)).elim
    · rw [if_neg he]
      exact h

theorem packFoldOne_pres_some (p : FsPath) (assets : List PackAsset) (m : AssetMap)
    (k : FsPath) (v : AssetLocator) (h : mapLookup m k = some v) :
    mapLookup (packFoldOne m p assets) k = some v := by
  induction assets generalizing m with
  | nil => exact h
  | cons a rest ih =>
    exact ih _ (insertIfAbsent_pres_some m a.name k (packLocator p a) v h)

theorem packFoldAll_pres_some (env : BuildEnv) (packs : List FsPath) (m : AssetMap)
    (k : FsPath) (v : AssetLocator) (h : mapLookup m k = some v) :
    mapLookup (packs.foldl (fun m2 p => packFoldOne m2 p (env.packOf p)) m) k = some v := by
  induction packs generalizing m with
  | nil => exact h
  | cons p rest ih =>
    exact ih _ (packFoldOne_pres_some p (env.packOf p) m k v h)

theorem packFoldOne_lookup_none (p : FsPath) (assets : List PackAsset) (m : AssetMap)
    (k : FsPath) (h : mapLookup m k = none) :
    mapLookup (packFoldOne m p assets) k = firstHitIn p assets k := by
  induction assets generalizing m with
  | nil => exact h
  | cons a rest ih =>
    show mapLookup (packFoldOne (mapInsertIfAbsent m a.name (packLocator p a)) p rest) k =
      firstHitIn p (a :: rest) k
    by_cases he : a.name = k
    · have hins : mapLookup (mapInsertIfAbsent m a.name (packLocator p a)) k =
          some (packLocator p a) := by
        unfold mapInsertIfAbsent
        rw [he, h]
        simp [mapLookup_insert]
      rw [packFoldOne_pres_some p rest _ k (packLocator p a) hins]
      simp only [firstHitIn]
      rw [if_pos he]
    · have hins : mapLookup (mapInsertIfAbsent m a.name (packLocator p a)) k = none := by
        unfold mapInsertIfAbsent
        by_cases hp : (mapLookup m a.name).isSome
        · rw [if_pos hp]
          exact h
        · rw [if_neg hp, mapLookup_insert, if_neg he]
          exact h
      rw [ih _ hins]
      simp only [firstHitIn]
      rw [if_neg he]

theorem packFoldAll_lookup_none (env : BuildEnv) (packs : List FsPath) (m : AssetMap)
    (k : FsPath) (h : mapLookup m k = none) :
    mapLookup (packs.foldl (fun m2 p => packFoldOne m2 p (env.packOf p)) m) k =
      firstPackHit env packs k := by
  induction packs generalizing m with
  | nil => exact h
  | cons p rest ih =>
    show mapLookup (rest.foldl _ (packFoldOne m p (env.packOf p))) k =
      firstPackHit env (p :: rest) k
    cases hf : firstHitIn p (env.packOf p) k with
    | some v =>
      have h1 : mapLookup (packFoldOne m p (env.packOf p)) k = some v := by
        rw [packFoldOne_lookup_none p (env.packOf p) m k h, hf]
      rw [packFoldAll_pres_some env rest _ k v h1]
      simp only [firstPackHit, hf]
    | none =>
      have h1 : mapLookup (packFoldOne m p (env.packOf p)) k = none := by
        rw [packFoldOne_lookup_none p (env.packOf p) m k h, hf]
      rw [ih _ h1]
      simp only [firstPackHit, hf]

/-- C7: in the built asset map, a key bound during the loose-file pass
keeps its loose locator (pack folding never overwrites it), and a key
absent from the loose pass is bound to the first pack entry folded in for
it (among packs in task order and entries in directory order) — so loose
files override pack entries, and among pack entries the first inserted
wins. -/
theorem c7_loose_overrides_pack_first_pack_wins (lib : Lib) (env : BuildEnv)
    (m : AssetMap) (packs : List FsPath)
    (hl : loosePass lib env = some (m, packs))
    (M : AssetMap) (hb : build_asset_map lib env = some M) (k : FsPath) :
    (∀ v, mapLookup m k = some v → mapLookup M k = some v)
    ∧ (mapLookup m k = none → mapLookup M k = firstPackHit env packs k) := by
  have hM : M = packs.foldl (fun m2 p => packFoldOne m2 p (env.packOf p)) m := by
    unfold build_asset_map at hb
    rw [hl] at hb
    exact (Option.some.inj hb).symm
  subst hM
  exact ⟨fun v hv => packFoldAll_pres_some env packs m k v hv,
    fun hn => packFoldAll_lookup_none env packs m k hn⟩

/-- C7 witness: at key `a.txt`, the loose locator survives the pack
fold. -/
theorem c7_loose_overrides_pack_first_pack_wins_witness :
    (∀ v, mapLookup [([.utf8 ("a.txt".toList)],
        ⟨lib0.crc32 [65], .file ⟨[.utf8 ("a.txt".toList)], 0, 1⟩⟩)]
        [.utf8 ("a.txt".toList)] = some v →
      mapLookup
        [([.utf8 ("b.bin".toList)], ⟨4, .file ⟨[.utf8 ("w.pack".toList)], 20, 2⟩⟩),
         ([.utf8 ("a.txt".toList)],
          ⟨lib0.crc32 [65], .file ⟨[.utf8 ("a.txt".toList)], 0, 1⟩⟩)]
        [.utf8 ("a.txt".toList)] = some v)
    ∧ (mapLookup [([.utf8 ("a.txt".toList)],
          ⟨lib0.crc32 [65], .file ⟨[.utf8 ("a.txt".toList)], 0, 1⟩⟩)]
          [.utf8 ("a.txt".toList)] = none →
        mapLookup
          [([.utf8 ("b.bin".toList)], ⟨4, .file ⟨[.utf8 ("w.pack".toList)], 20, 2⟩⟩),
           ([.utf8 ("a.txt".toList)],
            ⟨lib0.crc32 [65], .file ⟨[.utf8 ("a.txt".toList)], 0, 1⟩⟩)]
          [.utf8 ("a.txt".toList)] =
          firstPackHit envC7 [[.utf8 ("w.pack".toList)]] [.utf8 ("a.txt".toList)]) :=
  c7_loose_overrides_pack_first_pack_wins lib0 envC7
    [([.utf8 ("a.txt".toList)], ⟨lib0.crc32 [65], .file ⟨[.utf8 ("a.txt".toList)], 0, 1⟩⟩)]
    [[.utf8 ("w.pack".toList)]] (by decide)
    [([.utf8 ("b.bin".toList)], ⟨4, .file ⟨[.utf8 ("w.pack".toList)], 20, 2⟩⟩),
     ([.utf8 ("a.txt".toList)], ⟨lib0.crc32 [65], .file ⟨[.utf8 ("a.txt".toList)], 0, 1⟩⟩)]
    (by decide) [.utf8 ("a.txt".toList)]

/-! Claim C3. -/

theorem rsplitOnceChar_append (xs ys : Str) (sep : Char) :
    rsplitOnceChar (xs ++ ys) sep =
      match rsplitOnceChar ys sep with
      | some (l, r) => some (xs ++ l, r)
      | none =>
        match rsplitOnceChar xs sep with
        | some (l, r) => some (l, r ++ ys)
        | none => none := by
  induction xs with
  | nil =>
    cases h1 : rsplitOnceChar ys sep with
    | some pr =>
      rcases pr with ⟨l, r⟩
      simp [h1]
    | none => simp [h1, rsplitOnceChar]
  | cons c rest ih =>
    cases h1 : rsplitOnceChar ys sep with
    | some pr =>
      rcases pr with ⟨l, r⟩
      simp only [List.cons_append, rsplitOnceChar, List.append_eq, ih, h1]
    | none =>
      cases h2 : rsplitOnceChar rest sep with
      | some pr =>
        rcases pr with ⟨l, r⟩
        simp only [List.cons_append, rsplitOnceChar, List.append_eq, ih, h1, h2]
      | none =>
        simp only [List.cons_append, rsplitOnceChar, List.append_eq, ih, h1, h2]
        by_cases hc : c = sep <;> simp [hc]

/-- A file name ending in `_manifest.txt` has extension `txt`. -/
theorem rustExtension_manifest_suffix (f : Str)
    (hf : ("_manifest.txt".toList).isSuffixOf f = true) :
    rustExtension f = some ("txt".toList) := by
  have hsfx : ("_manifest.txt".toList) <:+ f := by
    simpa [List.isSuffixOf_iff_suffix] using hf
  obtain ⟨pre, hpre⟩ := hsfx
  subst hpre
  cases pre with
  | nil => decide
  | cons c0 ptail =>
    have hr : rsplitOnceChar ("_manifest.txt".toList) '.' =
        some ("_manifest".toList, "txt".toList) := by decide
    unfold rustExtension fileStemExt
    simp only [List.cons_append]
    rw [rsplitOnceChar_append, hr]

/-- A file name ending in `_manifest.txt` is not literally `manifest.txt`. -/
theorem manifest_suffix_ne (f : Str)
    (hf : ("_manifest.txt".toList).isSuffixOf f = true) :
    f ≠ ("manifest.txt".toList) := by
  intro heq
  rw [heq] at hf
  exact absurd hf (by decide)

/-- Processing a `dir/<base>_manifest.txt` entry takes the manifest
branch and publishes exactly the pair of `manifest.txt`/`manifest.crc`
entries for its directory. -/
theorem buildStep_manifest_inserts (lib : Lib) (env : BuildEnv) (dir : FsPath)
    (f : Str) (e : FileEntry) (hpath : e.path = dir ++ [.utf8 f])
    (hf : ("_manifest.txt".toList).isSuffixOf f = true)
    (r : Bytes)
    (hr : remoteManifestSide lib env (dir ++ [.utf8 ("manifest.txt.z".toList)]) = some r)
    (acc : AssetMap × List FsPath) :
    buildStep lib env acc e = some
      (mapInsert
        (mapInsert acc.1 (dir ++ [.utf8 ("manifest.txt".toList)])
          ⟨lib.crc32 (e.data ++ r), .memory (e.data ++ r)⟩)
        (dir ++ [.utf8 ("manifest.crc".toList)])
        ⟨lib.crc32 (asciiDecimal (lib.crc32 (e.data ++ r))),
         .memory (asciiDecimal (lib.crc32 (e.data ++ r)))⟩, acc.2) := by
  have hname : fsFileName e.path = some (.utf8 f) := by
    rw [hpath]
    unfold fsFileName
    exact List.getLast?_concat _
  have hext : rustExtension f = some ("txt".toList) :=
    rustExtension_manifest_suffix f hf
  have hpack : ¬ (fsIsPack e.path = true) := by
    unfold fsIsPack
    rw [hname]
    simp [hext]
  have hskip : ¬ (fsFileName e.path = some (.utf8 ("manifest.txt".toList))) := by
    rw [hname]
    intro hc
    have h1 : FsComp.utf8 f = FsComp.utf8 ("manifest.txt".toList) :=
      Option.some.inj hc
    have h2 : f = ("manifest.txt".toList) := by injection h1
    exact manifest_suffix_ne f hf h2
  have hends : file_name_ends_with e.path ("_manifest.txt".toList) = true := by
    unfold file_name_ends_with
    rw [hname]
    exact hf
  have hwfn1 : fsWithFileName e.path ("manifest.txt.z".toList) =
      dir ++ [.utf8 ("manifest.txt.z".toList)] := by
    rw [hpath]
    unfold fsWithFileName
    rw [List.dropLast_concat]
  have hwfn2 : fsWithFileName e.path ("manifest.txt".toList) =
      dir ++ [.utf8 ("manifest.txt".toList)] := by
    rw [hpath]
    unfold fsWithFileName
    rw [List.dropLast_concat]
  have hwfn3 : fsWithFileName e.path ("manifest.crc".toList) =
      dir ++ [.utf8 ("manifest.crc".toList)] := by
    rw [hpath]
    unfold fsWithFileName
    rw [List.dropLast_concat]
  unfold buildStep
  rw [if_neg hpack, if_neg hskip, if_pos hends, hwfn1, hwfn2, hwfn3, hr]

/-- Any build step other than a manifest merge in directory `dir` leaves
the `dir/manifest.txt` and `dir/manifest.crc` bindings untouched. -/
theorem buildStep_preserves_mkeys (lib : Lib) (env : BuildEnv) (dir : FsPath)
    (e2 : FileEntry) (acc acc2 : AssetMap × List FsPath)
    (hstep : buildStep lib env acc e2 = some acc2)
    (hnot : ¬ (file_name_ends_with e2.path ("_manifest.txt".toList) = true ∧
      e2.path.dropLast = dir))
    (k : FsPath)
    (hk : k = dir ++ [.utf8 ("manifest.txt".toList)] ∨
      k = dir ++ [.utf8 ("manifest.crc".toList)]) :
    mapLookup acc2.1 k = mapLookup acc.1 k := by
  unfold buildStep at hstep
  by_cases h1 : fsIsPack e2.path = true
  · rw [if_pos h1] at hstep
    obtain rfl := Option.some.inj hstep
    rfl
  · rw [if_neg h1] at hstep
    by_cases h2 : fsFileName e2.path = some (.utf8 ("manifest.txt".toList))
    · rw [if_pos h2] at hstep
      obtain rfl := Option.some.inj hstep
      rfl
    · rw [if_neg h2] at hstep
      by_cases h3 : file_name_ends_with e2.path ("_manifest.txt".toList) = true
      · rw [if_pos h3] at hstep
        have hdl : e2.path.dropLast ≠ dir := fun hd => hnot ⟨h3, hd⟩
        cases hrm : remoteManifestSide lib env
            (fsWithFileName e2.path ("manifest.txt.z".toList)) with
        | none =>
          rw [hrm] at hstep
          exact Option.noConfusion hstep
        | some rm =>
          rw [hrm] at hstep
          obtain rfl := Option.some.inj hstep
          have hK1 : fsWithFileName e2.path ("manifest.txt".toList) ≠ k := by
            unfold fsWithFileName
            rcases hk with rfl | rfl
            · intro hc
              exact hdl (concat_eq_concat_iff.mp hc).1
            · intro hc
              have h4 := (concat_eq_concat_iff.mp hc).2
              have h5 : ("manifest.txt".toList : Str) = ("manifest.crc".toList) := by
                injection h4
              exact absurd h5 (by decide)
          have hK2 : fsWithFileName e2.path ("manifest.crc".toList) ≠ k := by
            unfold fsWithFileName
            rcases hk with rfl | rfl
            · intro hc
              have h4 := (concat_eq_concat_iff.mp hc).2
              have h5 : ("manifest.crc".toList : Str) = ("manifest.txt".toList) := by
                injection h4
              exact absurd h5 (by decide)
            · intro hc
              exact hdl (concat_eq_concat_iff.mp hc).1
          show mapLookup (mapInsert (mapInsert acc.1 _ _) _ _) k = mapLookup acc.1 k
          rw [mapLookup_insert, if_neg hK2, mapLookup_insert, if_neg hK1]
      · rw [if_neg h3] at hstep
        by_cases h4 : file_name_ends_with e2.path ("manifest.crc".toList) = true
        · rw [if_pos h4] at hstep
          obtain rfl := Option.some.inj hstep
          rfl
        · rw [if_neg h4] at hstep
          obtain rfl := Option.some.inj hstep
          have hne : e2.path ≠ k := by
            rcases hk with rfl | rfl
            · intro hc
              apply h2
              rw [hc]
              unfold fsFileName
              exact List.getLast?_concat _
            · intro hc
              apply h4
              unfold file_name_ends_with fsFileName
              rw [hc, List.getLast?_concat]
              decide
          show mapLookup (mapInsert acc.1 _ _) k = mapLookup acc.1 k
          rw [mapLookup_insert, if_neg hne]

/-- Folding `buildStep` preserves any invariant each step preserves. -/
theorem foldlM_buildStep_preserves (lib : Lib) (env : BuildEnv)
    (P : AssetMap × List FsPath → Prop) (l : List FileEntry)
    (hstep : ∀ e2 ∈ l, ∀ acc acc2, P acc → buildStep lib env acc e2 = some acc2 → P acc2)
    (acc res : AssetMap × List FsPath) (hP : P acc)
    (hfold : l.foldlM (buildStep lib env) acc = some res) : P res := by
  induction l generalizing acc with
  | nil =>
    simp only [List.foldlM_nil] at hfold
    obtain rfl := Option.some.inj hfold
    exact hP
  | cons e2 rest ih =>
    rw [List.foldlM_cons] at hfold
    cases hs : buildStep lib env acc e2 with
    | none =>
      rw [hs] at hfold
      exact Option.noConfusion hfold
    | some acc1 =>
      rw [hs] at hfold
      simp only [Option.bind_eq_bind, Option.some_bind] at hfold
      exact ih (fun e3 he3 => hstep e3 (List.mem_cons_of_mem _ he3)) acc1
        (hstep e2 (List.mem_cons_self _ _) acc acc1 hP hs) hfold

theorem lookup_double_insert (m : AssetMap) (k1 k2 : FsPath) (v1 v2 : AssetLocator)
    (hne : k1 ≠ k2) :
    mapLookup (mapInsert (mapInsert m k1 v1) k2 v2) k1 = some v1 ∧
    mapLookup (mapInsert (mapInsert m k1 v1) k2 v2) k2 = some v2 := by
  constructor
  · rw [mapLookup_insert, if_neg (fun hc => hne hc.symm), mapLookup_insert, if_pos rfl]
  · rw [mapLookup_insert, if_pos rfl]

theorem manifest_keys_ne (dir : FsPath) :
    dir ++ [FsComp.utf8 ("manifest.txt".toList)] ≠
      dir ++ [FsComp.utf8 ("manifest.crc".toList)] := by
  intro hc
  have h4 := (concat_eq_concat_iff.mp hc).2
  have h5 : ("manifest.txt".toList : Str) = ("manifest.crc".toList) := by injection h4
  exact absurd h5 (by decide)

/-- After the loose-file pass, the unique `dir/<base>_manifest.txt`
entry's directory holds the merged manifest pair. -/
theorem loosePass_manifest_lookup (lib : Lib) (env : BuildEnv) (dir : FsPath)
    (f : Str) (e : FileEntry) (he : e ∈ env.files)
    (hpath : e.path = dir ++ [.utf8 f])
    (hf : ("_manifest.txt".toList).isSuffixOf f = true)
    (huniq : ∀ e2 ∈ env.files,
      file_name_ends_with e2.path ("_manifest.txt".toList) = true →
      e2.path.dropLast = dir → e2 = e)
    (r : Bytes)
    (hr : remoteManifestSide lib env (dir ++ [.utf8 ("manifest.txt.z".toList)]) = some r)
    (m : AssetMap) (ps : List FsPath)
    (hlp : loosePass lib env = some (m, ps)) :
    mapLookup m (dir ++ [FsComp.utf8 ("manifest.txt".toList)]) =
      some ⟨lib.crc32 (e.data ++ r), .memory (e.data ++ r)⟩
    ∧ mapLookup m (dir ++ [FsComp.utf8 ("manifest.crc".toList)]) =
      some ⟨lib.crc32 (asciiDecimal (lib.crc32 (e.data ++ r))),
        .memory (asciiDecimal (lib.crc32 (e.data ++ r)))⟩ := by
  obtain ⟨l1, l2, hsplit⟩ := List.append_of_mem he
  have hfold : (l1 ++ e :: l2).foldlM (buildStep lib env) ([], []) = some (m, ps) := by
    have h0 := hlp
    unfold loosePass at h0
    rw [hsplit] at h0
    exact h0
  rw [List.foldlM_append] at hfold
  cases hs1 : l1.foldlM (buildStep lib env) (([], []) : AssetMap × List FsPath) with
  | none =>
    rw [hs1] at hfold
    simp at hfold
  | some s1 =>
    rw [hs1] at hfold
    simp only [Option.bind_eq_bind, Option.some_bind] at hfold
    rw [List.foldlM_cons, buildStep_manifest_inserts lib env dir f e hpath hf r hr s1]
      at hfold
    simp only [Option.bind_eq_bind, Option.some_bind] at hfold
    have hP0 := lookup_double_insert s1.1
      (dir ++ [FsComp.utf8 ("manifest.txt".toList)])
      (dir ++ [FsComp.utf8 ("manifest.crc".toList)])
      ⟨lib.crc32 (e.data ++ r), .memory (e.data ++ r)⟩
      ⟨lib.crc32 (asciiDecimal (lib.crc32 (e.data ++ r))),
        .memory (asciiDecimal (lib.crc32 (e.data ++ r)))⟩
      (manifest_keys_ne dir)
    refine foldlM_buildStep_preserves lib env
      (fun acc => mapLookup acc.1 (dir ++ [FsComp.utf8 ("manifest.txt".toList)]) =
          some ⟨lib.crc32 (e.data ++ r), .memory (e.data ++ r)⟩ ∧
        mapLookup acc.1 (dir ++ [FsComp.utf8 ("manifest.crc".toList)]) =
          some ⟨lib.crc32 (asciiDecimal (lib.crc32 (e.data ++ r))),
            .memory (asciiDecimal (lib.crc32 (e.data ++ r)))⟩)
      l2 ?_ _ (m, ps) hP0 hfold
    intro e2 he2 acc acc2 hPacc hstep
    by_cases hcond : file_name_ends_with e2.path ("_manifest.txt".toList) = true ∧
        e2.path.dropLast = dir
    · have he2mem : e2 ∈ env.files := by
        rw [hsplit]
        exact List.mem_append_right _ (List.mem_cons_of_mem _ he2)
      have heq : e2 = e := huniq e2 he2mem hcond.1 hcond.2
      subst heq
      rw [buildStep_manifest_inserts lib env dir f e2 hpath hf r hr acc] at hstep
      obtain rfl := Option.some.inj hstep
      exact lookup_double_insert acc.1 _ _ _ _ (manifest_keys_ne dir)
    · have hpres := buildStep_preserves_mkeys lib env dir e2 acc acc2 hstep hcond
      refine ⟨?_, ?_⟩
      · rw [hpres _ (Or.inl rfl)]
        exact hPacc.1
      · rw [hpres _ (Or.inr rfl)]
        exact hPacc.2

/-- C3: for a local file `dir/<base>_manifest.txt` discovered during
indexing (the only manifest-suffixed file of its directory), the built
asset map binds `dir/manifest.txt` to the in-memory blob equal to the
local file's bytes concatenated with the remote contribution, and
`dir/manifest.crc` to the ASCII decimal rendering of the crc32 of that
merged blob; the remote contribution is the envelope-decoded remote
manifest when the fetch returns 200, and the empty byte string when the
fetch fails or the remote key path is not UTF-8 (the local side always
contributes); and processing the manifest file publishes exactly those
two entries: any other key and the pack list are left unchanged. -/
theorem c3_manifest_merge_publishes (lib : Lib) (env : BuildEnv) (dir : FsPath)
    (f : Str) (e : FileEntry) (he : e ∈ env.files)
    (hpath : e.path = dir ++ [.utf8 f])
    (hf : ("_manifest.txt".toList).isSuffixOf f = true)
    (huniq : ∀ e2 ∈ env.files,
      file_name_ends_with e2.path ("_manifest.txt".toList) = true →
      e2.path.dropLast = dir → e2 = e)
    (M : AssetMap) (hb : build_asset_map lib env = some M)
    (r : Bytes)
    (hr : remoteManifestSide lib env (dir ++ [.utf8 ("manifest.txt.z".toList)]) = some r) :
    mapLookup M (dir ++ [FsComp.utf8 ("manifest.txt".toList)]) =
      some ⟨lib.crc32 (e.data ++ r), .memory (e.data ++ r)⟩
    ∧ mapLookup M (dir ++ [FsComp.utf8 ("manifest.crc".toList)]) =
      some ⟨lib.crc32 (asciiDecimal (lib.crc32 (e.data ++ r))),
        .memory (asciiDecimal (lib.crc32 (e.data ++ r)))⟩
    ∧ (fsPathToStr (dir ++ [FsComp.utf8 ("manifest.txt.z".toList)]) = none → r = [])
    ∧ (∀ s, fsPathToStr (dir ++ [FsComp.utf8 ("manifest.txt.z".toList)]) = some s →
        env.remote s = none → r = [])
    ∧ (∀ s rb, fsPathToStr (dir ++ [FsComp.utf8 ("manifest.txt.z".toList)]) = some s →
        env.remote s = some rb → decompress_asset_response lib rb = some r)
    ∧ (∀ acc acc2, buildStep lib env acc e = some acc2 →
        acc2.2 = acc.2 ∧
        ∀ k, k ≠ dir ++ [FsComp.utf8 ("manifest.txt".toList)] →
          k ≠ dir ++ [FsComp.utf8 ("manifest.crc".toList)] →
          mapLookup acc2.1 k = mapLookup acc.1 k) := by
  have hrchar1 : fsPathToStr (dir ++ [FsComp.utf8 ("manifest.txt.z".toList)]) = none →
      r = [] := by
    intro hs
    have hr2 := hr
    unfold remoteManifestSide at hr2
    rw [hs] at hr2
    exact (Option.some.inj hr2).symm
  have hrchar2 : ∀ s, fsPathToStr (dir ++ [FsComp.utf8 ("manifest.txt.z".toList)]) =
      some s → env.remote s = none → r = [] := by
    intro s hs hrem
    have hr2 := hr
    unfold remoteManifestSide at hr2
    rw [hs] at hr2
    simp only [hrem] at hr2
    exact (Option.some.inj hr2).symm
  have hrchar3 : ∀ s rb, fsPathToStr (dir ++ [FsComp.utf8 ("manifest.txt.z".toList)]) =
      some s → env.remote s = some rb → decompress_asset_response lib rb = some r := by
    intro s rb hs hrem
    have hr2 := hr
    unfold remoteManifestSide at hr2
    rw [hs] at hr2
    simp only [hrem] at hr2
    exact hr2
  have hframe : ∀ acc acc2, buildStep lib env acc e = some acc2 →
      acc2.2 = acc.2 ∧
      ∀ k, k ≠ dir ++ [FsComp.utf8 ("manifest.txt".toList)] →
        k ≠ dir ++ [FsComp.utf8 ("manifest.crc".toList)] →
        mapLookup acc2.1 k = mapLookup acc.1 k := by
    intro acc acc2 hstep
    rw [buildStep_manifest_inserts lib env dir f e hpath hf r hr acc] at hstep
    obtain rfl := Option.some.inj hstep
    refine ⟨rfl, fun k hk1 hk2 => ?_⟩
    show mapLookup (mapInsert (mapInsert acc.1 _ _) _ _) k = mapLookup acc.1 k
    rw [mapLookup_insert, if_neg (fun hc => hk2 hc.symm),
      mapLookup_insert, if_neg (fun hc => hk1 hc.symm)]
  cases hlp : loosePass lib env with
  | none =>
    unfold build_asset_map at hb
    rw [hlp] at hb
    exact Option.noConfusion hb
  | some pr =>
    obtain ⟨m, ps⟩ := pr
    have hm := loosePass_manifest_lookup lib env dir f e he hpath hf huniq r hr m ps hlp
    unfold build_asset_map at hb
    rw [hlp] at hb
    obtain rfl := Option.some.inj hb
    exact ⟨packFoldAll_pres_some env ps m _ _ hm.1,
      packFoldAll_pres_some env ps m _ _ hm.2, hrchar1, hrchar2, hrchar3, hframe⟩

/-- C3 witness: instantiation at `data/foo_manifest.txt`; the failed
remote fetch contributes the empty byte string, so the merged manifest is
just `L` and the crc file is the ASCII decimal of `crc32(L)` (0 under
`lib0`). -/
theorem c3_manifest_merge_publishes_witness :
    mapLookup
      [([.utf8 ("data".toList), .utf8 ("manifest.crc".toList)], ⟨0, .memory [48]⟩),
       ([.utf8 ("data".toList), .utf8 ("manifest.txt".toList)], ⟨0, .memory [76]⟩)]
      ([.utf8 ("data".toList)] ++ [FsComp.utf8 ("manifest.txt".toList)]) =
      some ⟨lib0.crc32 ([76] ++ []), .memory ([76] ++ [])⟩
    ∧ mapLookup
      [([.utf8 ("data".toList), .utf8 ("manifest.crc".toList)], ⟨0, .memory [48]⟩),
       ([.utf8 ("data".toList), .utf8 ("manifest.txt".toList)], ⟨0, .memory [76]⟩)]
      ([.utf8 ("data".toList)] ++ [FsComp.utf8 ("manifest.crc".toList)]) =
      some ⟨lib0.crc32 (asciiDecimal (lib0.crc32 ([76] ++ []))),
        .memory (asciiDecimal (lib0.crc32 ([76] ++ [])))⟩
    ∧ (fsPathToStr ([.utf8 ("data".toList)] ++
        [FsComp.utf8 ("manifest.txt.z".toList)]) = none → ([] : Bytes) = [])
    ∧ (∀ s, fsPathToStr ([.utf8 ("data".toList)] ++
        [FsComp.utf8 ("manifest.txt.z".toList)]) = some s →
        envC3.remote s = none → ([] : Bytes) = [])
    ∧ (∀ s rb, fsPathToStr ([.utf8 ("data".toList)] ++
        [FsComp.utf8 ("manifest.txt.z".toList)]) = some s →
        envC3.remote s = some rb → decompress_asset_response lib0 rb = some [])
    ∧ (∀ acc acc2, buildStep lib0 envC3 acc
        ⟨[.utf8 ("data".toList), .utf8 ("foo_manifest.txt".toList)], [76]⟩ = some acc2 →
        acc2.2 = acc.2 ∧
        ∀ k, k ≠ [.utf8 ("data".toList)] ++ [FsComp.utf8 ("manifest.txt".toList)] →
          k ≠ [.utf8 ("data".toList)] ++ [FsComp.utf8 ("manifest.crc".toList)] →
          mapLookup acc2.1 k = mapLookup acc.1 k) :=
  c3_manifest_merge_publishes lib0 envC3 [.utf8 ("data".toList)]
    ("foo_manifest.txt".toList)
    ⟨[.utf8 ("data".toList), .utf8 ("foo_manifest.txt".toList)], [76]⟩
    (by decide) (by decide) (by decide) (by decide)
    [([.utf8 ("data".toList), .utf8 ("manifest.crc".toList)], ⟨0, .memory [48]⟩),
     ([.utf8 ("data".toList), .utf8 ("manifest.txt".toList)], ⟨0, .memory [76]⟩)]
    (by decide) [] (by decide)

end OxideClient
